import Mathlib

/-!
Shallow embedding of the rippled peer-to-peer overlay core:
`OverlayImpl.cpp` (relay/send fan-out, handoff of inbound upgrade
requests, manifest handling, peer selection, shutdown) and
`ConnectAttempt` (the outbound dialer's watchdog discipline).

External collaborators that are not part of the given sources
(HashRouter, PeerFinder, beast endpoint formatting, PeerImp scoring)
are modelled from the specification and are marked as such in their
doc comments.  All definitions are executable.
-/

namespace RippledOverlay

/-- Peer short id (`Peer::id_t`). -/
abbrev PeerId := Nat

/-- Content hash identifying a message (`uint256 uid`), abstracted to `Nat`. -/
abbrev Uid := Nat

/-- Modelled from the spec: the `SF_RELAYED` flag bit of the hash router
(`HashRouter.h` is not among the given sources); the concrete bit value is
immaterial, any fixed nonzero power of two works. -/
def SF_RELAYED : Nat := 1

/-- Modelled from the spec: a hash-router entry,
`(content_hash → set<peer_short_id>)` together with a set of flags
recording whether the content has been relayed. -/
structure RouterEntry where
  flags : List Nat
  peers : List PeerId
deriving Repr, DecidableEq

/-- Modelled from the spec: the hash router's suppression table, keyed by
content hash.  Represented as an association list; a missing key means the
content has never been seen. -/
structure HashRouter where
  entries : List (Uid × RouterEntry)
deriving Repr, DecidableEq

/-- Look up the entry stored for `uid`, if any. -/
def HashRouter.find (r : HashRouter) (uid : Uid) : Option RouterEntry :=
  (r.entries.find? (fun kv => kv.1 == uid)).map (·.2)

/-- Store `e` as the entry for `uid`, replacing any previous entry. -/
def HashRouter.store (r : HashRouter) (uid : Uid) (e : RouterEntry) : HashRouter :=
  ⟨(uid, e) :: r.entries.filter (fun kv => kv.1 != uid)⟩

/-- The entry for `uid`, defaulting to an empty entry (no flags, no peers). -/
def HashRouter.entry (r : HashRouter) (uid : Uid) : RouterEntry :=
  (r.find uid).getD ⟨[], []⟩

/-- Modelled from the spec: `HashRouter::swapSet(uid, skipSet, flag)`
(`HashRouter.cpp` is not among the given sources).  Atomically ORs `flag`
into the entry's flag set and swaps the caller's `callerSet` with the
stored one (union semantics): the stored set becomes the union, the old
stored set is handed back to the caller.  Returns true iff `flag` was
newly set. -/
def HashRouter.swapSet (r : HashRouter) (uid : Uid) (callerSet : List PeerId)
    (flag : Nat) : Bool × HashRouter × List PeerId :=
  let e := r.entry uid
  (!(e.flags.contains flag),
   r.store uid ⟨e.flags.insert flag, callerSet ∪ e.peers⟩,
   e.peers)

/-- Modelled from the spec: `HashRouter::addSuppressionPeer(hash, id)`
(not among the given sources).  Records that peer `pid` has seen `uid`,
creating the suppression entry when absent; returns true iff the entry
was newly created (the hash passed suppression). -/
def HashRouter.addSuppressionPeer (r : HashRouter) (uid : Uid) (pid : PeerId) :
    Bool × HashRouter :=
  match r.find uid with
  | none => (true, r.store uid ⟨[], [pid]⟩)
  | some e => (false, r.store uid ⟨e.flags, e.peers.insert pid⟩)

/-- Whether `SF_RELAYED` is already set in the router's entry for `uid`. -/
def HashRouter.relayedSet (r : HashRouter) (uid : Uid) : Bool :=
  (r.entry uid).flags.contains SF_RELAYED

/-- A protocol message (`TMProposeSet` / `TMValidation`): the overlay code
only inspects the optional hop count (`has_hops()` / `hops()`). -/
structure ProtoMsg where
  hops : Option Nat
deriving Repr, DecidableEq

/-- Protobuf `has_hops()`. -/
def ProtoMsg.has_hops (m : ProtoMsg) : Bool := m.hops.isSome

/-- Protobuf `hops()` (0 when the field is unset). -/
def ProtoMsg.hopsVal (m : ProtoMsg) : Nat := m.hops.getD 0

/-- Protobuf `set_hops(n)`: after the call the field is present. -/
def ProtoMsg.set_hops (_ : ProtoMsg) (n : Nat) : ProtoMsg := ⟨some n⟩

/-- One active peer as seen by the overlay's `for_each` (an entry of
`ids_`): its short id and whether its protocol version understands hop
counts (`PeerImp::hopsAware`). -/
structure PeerRec where
  id : PeerId
  hopsAware : Bool
deriving Repr, DecidableEq

/-- The overlay state that `send`/`relay` touch: the active peers in
iteration order, the hash router, the `setup_.expire` flag, and the
externally defined `maxTTL` constant (not among the given sources,
kept as a model parameter). -/
structure OverlayState where
  peers : List PeerRec
  router : HashRouter
  expire : Bool
  maxTTL : Nat
deriving Repr, DecidableEq

/-- `OverlayImpl::send` (lines 903–928): when `setup_.expire` is set the
message's hop count is forcibly zeroed, then the encoded copy goes to
every active peer that is hop-aware whenever the message carries hops.
Returns the (possibly modified) message and the recipient ids. -/
def OverlayState.send (st : OverlayState) (m : ProtoMsg) : ProtoMsg × List PeerId :=
  let m := if st.expire then m.set_hops 0 else m
  (m, (st.peers.filter (fun p => !m.has_hops || p.hopsAware)).map (·.id))

/-- `OverlayImpl::relay` (lines 930–970, identical for `TMProposeSet` and
`TMValidation`): drop when `hops ≥ maxTTL`; otherwise call
`swapSet(uid, ∅, SF_RELAYED)`; if the relayed flag was not newly set,
send nothing; else send the shared encoded copy to every active peer
whose id is not in the swapped-in skip set and which is hop-aware when
the message declares hops.  Returns the new state, the message actually
encoded and sent (if any), and the recipient ids. -/
def OverlayState.relay (st : OverlayState) (m : ProtoMsg) (uid : Uid) :
    OverlayState × Option ProtoMsg × List PeerId :=
  if m.has_hops && st.maxTTL ≤ m.hopsVal then
    (st, none, [])
  else if (st.router.swapSet uid [] SF_RELAYED).1 then
    ({ st with router := (st.router.swapSet uid [] SF_RELAYED).2.1 }, some m,
     (st.peers.filter
       (fun p => !((st.router.swapSet uid [] SF_RELAYED).2.2.contains p.id) &&
         (!m.has_hops || p.hopsAware))).map (·.id))
  else
    ({ st with router := (st.router.swapSet uid [] SF_RELAYED).2.1 }, none, [])

/-! Helper lemmas about the router and relay. -/

/-- Storing an entry makes it the entry subsequently found for that uid. -/
theorem HashRouter.entry_store (r : HashRouter) (uid : Uid) (e : RouterEntry) :
    (r.store uid e).entry uid = e := by
  simp [HashRouter.store, HashRouter.entry, HashRouter.find]

/-- Swapping a flag into an entry leaves that flag set in the entry. -/
theorem HashRouter.swapSet_sets_flag (r : HashRouter) (uid : Uid)
    (cs : List PeerId) (flag : Nat) :
    ((r.swapSet uid cs flag).2.1.entry uid).flags.contains flag = true := by
  simp [HashRouter.swapSet, HashRouter.entry_store]

/-- After a relay that was not dropped by the TTL check, the relayed flag
is set for that uid in the resulting state's router. -/
theorem relay_sets_relayedSet (st : OverlayState) (m : ProtoMsg) (uid : Uid)
    (h : (m.has_hops && decide (st.maxTTL ≤ m.hopsVal)) = false) :
    ((st.relay m uid).1).router.relayedSet uid = true := by
  unfold OverlayState.relay
  simp only [h, Bool.false_eq_true, if_false]
  split <;> exact HashRouter.swapSet_sets_flag st.router uid [] SF_RELAYED

/-- Relay never drops or rearranges the active peer list, the expire flag,
or the TTL bound. -/
theorem relay_preserves_frame (st : OverlayState) (m : ProtoMsg) (uid : Uid) :
    (st.relay m uid).1.peers = st.peers ∧
    (st.relay m uid).1.expire = st.expire ∧
    (st.relay m uid).1.maxTTL = st.maxTTL := by
  refine ⟨?_, ?_, ?_⟩ <;>
    · unfold OverlayState.relay
      split
      · rfl
      · split <;> rfl

/-- When the relayed flag is already set for `uid`, a relay sends to
nobody. -/
theorem relay_sends_nothing_of_relayedSet (st : OverlayState) (m : ProtoMsg)
    (uid : Uid) (h : st.router.relayedSet uid = true) :
    (st.relay m uid).2.2 = [] := by
  have hc : (st.router.entry uid).flags.contains SF_RELAYED = true := h
  unfold OverlayState.relay
  split
  · rfl
  · have hf : (st.router.swapSet uid [] SF_RELAYED).1 = false := by
      simpa [HashRouter.swapSet] using hc
    simp [hf]

/-- A single relay call sends to any given peer at most once, provided the
active peers carry pairwise distinct short ids. -/
theorem relay_count_le_one (st : OverlayState) (m : ProtoMsg) (uid : Uid)
    (hnodup : (st.peers.map PeerRec.id).Nodup) (pid : PeerId) :
    (st.relay m uid).2.2.count pid ≤ 1 := by
  have key : ∀ (f : PeerRec → Bool),
      ((st.peers.filter f).map PeerRec.id).count pid ≤ 1 := fun f =>
    le_trans (((List.filter_sublist st.peers).map PeerRec.id).count_le pid)
      (List.nodup_iff_count_le_one.mp hnodup pid)
  unfold OverlayState.relay
  split
  · simp
  · split
    · exact key _
    · simp

/-! Claim theorems about `send`/`relay`. -/

/-- A concrete two-peer overlay state (one hop-aware peer, one not) with an
empty hash router, used to instantiate witnesses. -/
def wSt : OverlayState := ⟨[⟨5, true⟩, ⟨6, false⟩], ⟨[]⟩, false, 3⟩

/-- A concrete message carrying one hop. -/
def wMsg : ProtoMsg := ⟨some 1⟩

/-- C1: through `OverlayImpl::relay` every peer receives a message at most
once.  When the hash router's relayed flag for `uid` is already set, no
peer is sent the message; when the flag is newly set (and the TTL check
passes) the shared encoded copy goes exactly to the active peers whose id
is not in the swapped-in skip set and which are hop-aware whenever the
message declares a hop count; and across a relay followed by any further
relay of the same `uid`, each peer id occurs at most once among all
recipients (the active peers carrying pairwise distinct ids). -/
theorem relay_at_most_once_per_peer (st : OverlayState) (m m' : ProtoMsg)
    (uid : Uid) (hnodup : (st.peers.map PeerRec.id).Nodup) :
    (st.router.relayedSet uid = true → (st.relay m uid).2.2 = []) ∧
    (st.router.relayedSet uid = false →
      (m.has_hops && decide (st.maxTTL ≤ m.hopsVal)) = false →
      (st.relay m uid).2.2 =
        (st.peers.filter (fun p =>
          !(((st.router.entry uid).peers).contains p.id) &&
          (!m.has_hops || p.hopsAware))).map PeerRec.id) ∧
    (∀ pid : PeerId,
      ((st.relay m uid).2.2 ++
        (((st.relay m uid).1).relay m' uid).2.2).count pid ≤ 1) := by
  refine ⟨relay_sends_nothing_of_relayedSet st m uid, ?_, ?_⟩
  · intro hset httl
    have hc : (st.router.entry uid).flags.contains SF_RELAYED = false := hset
    unfold OverlayState.relay
    simp only [httl, Bool.false_eq_true, if_false]
    have ht : (st.router.swapSet uid [] SF_RELAYED).1 = true := by
      simp [HashRouter.swapSet]
      simpa using hc
    simp only [ht, if_true]
    rfl
  · intro pid
    by_cases httl : (m.has_hops && decide (st.maxTTL ≤ m.hopsVal)) = true
    · have h1 : st.relay m uid = (st, none, []) := by
        unfold OverlayState.relay
        simp [httl]
      rw [h1]
      simpa using relay_count_le_one st m' uid hnodup pid
    · have hset := relay_sets_relayedSet st m uid (by simpa using httl)
      have h2 := relay_sends_nothing_of_relayedSet ((st.relay m uid).1) m' uid hset
      rw [h2]
      simpa using relay_count_le_one st m uid hnodup pid

/-- Witness for C1: both hypotheses hold at the concrete state `wSt` and
message `wMsg`; the theorem instantiates there. -/
theorem relay_at_most_once_per_peer_witness :
    (wSt.peers.map PeerRec.id).Nodup ∧
    ((wSt.router.relayedSet 7 = true → (wSt.relay wMsg 7).2.2 = []) ∧
     (wSt.router.relayedSet 7 = false →
       (wMsg.has_hops && decide (wSt.maxTTL ≤ wMsg.hopsVal)) = false →
       (wSt.relay wMsg 7).2.2 =
         (wSt.peers.filter (fun p =>
           !(((wSt.router.entry 7).peers).contains p.id) &&
           (!wMsg.has_hops || p.hopsAware))).map PeerRec.id) ∧
     (∀ pid : PeerId,
       ((wSt.relay wMsg 7).2.2 ++
         (((wSt.relay wMsg 7).1).relay wMsg 7).2.2).count pid ≤ 1)) :=
  ⟨by decide, relay_at_most_once_per_peer wSt wMsg wMsg 7 (by decide)⟩

/-- C2: a message whose hop count has reached `maxTTL` is dropped by
`relay` before the hash router is consulted: the overlay state (router and
its suppression entries included) is returned unchanged, no message is
encoded, and no peer receives anything. -/
theorem relay_ttl_drop (st : OverlayState) (m : ProtoMsg) (uid : Uid)
    (h1 : m.has_hops = true) (h2 : st.maxTTL ≤ m.hopsVal) :
    st.relay m uid = (st, none, []) := by
  unfold OverlayState.relay
  simp [h1, h2]

/-- Witness for C2 at a message with `hops = 3` against `maxTTL = 3`. -/
theorem relay_ttl_drop_witness :
    (ProtoMsg.mk (some 3)).has_hops = true ∧
    wSt.maxTTL ≤ (ProtoMsg.mk (some 3)).hopsVal ∧
    wSt.relay ⟨some 3⟩ 9 = (wSt, none, []) :=
  ⟨by decide, by decide, relay_ttl_drop wSt ⟨some 3⟩ 9 (by decide) (by decide)⟩

/-- A concrete single-peer overlay state with `expire = true`, used for the
C3 counterexample and witness. -/
def wExpSt : OverlayState := ⟨[⟨5, true⟩], ⟨[]⟩, true, 3⟩

/-- C3 counterexample: with `expire = true`, `OverlayImpl::relay` still
sends the message with its original nonzero hop count — peer 5 receives a
copy whose `hops` field is 1, not 0, so hop counts are not stripped on
outbound relays. -/
theorem relay_expire_not_stripped :
    (wExpSt.relay ⟨some 1⟩ 7).2.1 = some ⟨some 1⟩ ∧
    (wExpSt.relay ⟨some 1⟩ 7).2.2 = [5] ∧
    (ProtoMsg.mk (some 1)).hops ≠ some 0 := by decide

/-- C3 amended: when `expire = true`, hop counts are forcibly zeroed in
`OverlayImpl::send` — every copy leaving through `send` carries
`hops = 0` — but `OverlayImpl::relay` does not strip hop counts: the copy
it sends is the incoming message itself, hop count intact. -/
theorem expire_zeroes_hops_in_send_only (st : OverlayState) (m : ProtoMsg)
    (uid : Uid) (h : st.expire = true) :
    (st.send m).1.hops = some 0 ∧
    (∀ m', (st.relay m uid).2.1 = some m' → m' = m) := by
  constructor
  · simp [OverlayState.send, h, ProtoMsg.set_hops]
  · intro m' hm
    unfold OverlayState.relay at hm
    split at hm
    · exact absurd hm (by simp)
    · split at hm
      · exact (Option.some_inj.mp hm).symm
      · exact absurd hm (by simp)

/-- Witness for C3's amended statement at the concrete expiring state. -/
theorem expire_zeroes_hops_in_send_only_witness :
    wExpSt.expire = true ∧
    (wExpSt.send ⟨some 1⟩).1.hops = some 0 ∧
    (∀ m', (wExpSt.relay ⟨some 1⟩ 7).2.1 = some m' → m' = ⟨some 1⟩) :=
  ⟨by decide,
   (expire_zeroes_hops_in_send_only wExpSt ⟨some 1⟩ 7 (by decide)).1,
   (expire_zeroes_hops_in_send_only wExpSt ⟨some 1⟩ 7 (by decide)).2⟩

/-! Embedding of `OverlayImpl::onHandoff` and its helpers. -/

/-- An IP endpoint: `(ip_address, port)`. -/
structure Endpoint where
  ip : String
  port : Nat
deriving Repr, DecidableEq

/-- Modelled from the spec: `beast::IP::Endpoint::to_string`, the
`<ip>:<port>` rendering used for redirect entries (beast's IP types are
not among the given sources). -/
def Endpoint.to_string (e : Endpoint) : String :=
  e.ip ++ ":" ++ toString e.port

/-- Modelled from the spec: the case-insensitive comparison with "peer"
done by `beast::detail::ci_equal` on `Connect-As` values (outside the
given sources), via ASCII case folding. -/
def ciIsPeer (s : String) : Bool :=
  s.data.map Char.toLower = "peer".data

/-- `PeerFinder::Result`, the verdict of `activate`. -/
inductive ActivateResult where
  | success
  | duplicate
  | full
deriving Repr, DecidableEq

/-- The parts of the inbound HTTP upgrade request that `onHandoff`
inspects.  `isUpgrade` is `is_upgrade(request)`, `upgradeVersions` the
number of versions `parse_ProtocolVersions` extracts from the `Upgrade`
header, `connectAs` the comma-split `Connect-As` header values, and
`keepAlive` the result of `is_keep_alive(request)`; these helpers live
outside the given sources and enter the model as oracle data. -/
structure HttpReq where
  url : String
  version : Nat
  isUpgrade : Bool
  upgradeVersions : Nat
  connectAs : List String
  keepAlive : Bool
deriving Repr, DecidableEq

/-- Results of the external collaborator calls `onHandoff` makes, in the
order the source consults them: the TLS socket's local endpoint (`none`
models an error from `local_endpoint(ec)`), the resource manager's
over-limit verdict for the remote (`Consumer::disconnect()`), the peer
finder's inbound-slot grant (`none` models the self-connect refusal), the
outcomes of `parseHello`, `makeSharedValue` and `verifyHello`, the
`activate` verdict, and the redirect list `redirect(slot)`. -/
structure HandoffEnv where
  localEndpoint : Option Endpoint
  consumerOverLimit : Bool
  inboundSlot : Option Nat
  helloParses : Bool
  sharedValueOk : Bool
  helloVerifies : Bool
  activateResult : ActivateResult
  redirectList : List Endpoint
deriving Repr, DecidableEq

/-- The JSON bodies the overlay writes: `peerIps ips` encodes the one-key
object `\x7b "peer-ips": [ ... ] \x7d` of `makeRedirectResponse`, and
`overlay` the `\x7b "overlay": crawl() \x7d` object of `processRequest`
(the crawl value depends on `PeerImp` accessors outside the given sources
and is kept opaque). -/
inductive JsonBody where
  | peerIps (ips : List String)
  | overlay
deriving Repr, DecidableEq

/-- An HTTP response the overlay hands back through `Handoff.response`. -/
structure HttpResponse where
  status : Nat
  reason : String
  headers : List (String × String)
  version : Nat × Nat
  body : JsonBody
deriving Repr, DecidableEq

/-- The `Handoff` result returned to the HTTP server, with the defaults of
`ripple/server/Handoff.h`: not moved, no response, no keep-alive. -/
structure Handoff where
  moved : Bool := false
  response : Option HttpResponse := none
  keep_alive : Bool := false
deriving Repr, DecidableEq

/-- Observable side effects of one `onHandoff` call: the advanced id
counter, whether a resource consumer was created for the remote, whether
an inbound slot was obtained, whether `on_closed` released it, and whether
a `PeerImp` was created, registered in the peer tables (`m_peers`,
`list_`) and started. -/
structure HandoffEffects where
  nextId : Nat
  consumerCreated : Bool := false
  slotCreated : Bool := false
  slotClosed : Bool := false
  peerAdded : Bool := false
deriving Repr, DecidableEq

/-- `OverlayImpl::isPeerUpgrade` (lines 291–301): an upgrade request whose
`Upgrade` header yields at least one parseable protocol version. -/
def isPeerUpgrade (req : HttpReq) : Bool :=
  req.isUpgrade && req.upgradeVersions != 0

/-- `OverlayImpl::makeRedirectResponse` (lines 325–349): a
`503 Service Unavailable` whose JSON body holds the stringified redirect
endpoints under "peer-ips" and whose `Remote-Address` header carries the
remote address; the HTTP version echoes the request's. -/
def makeRedirectResponse (redirectList : List Endpoint) (req : HttpReq)
    (remoteAddress : String) : HttpResponse :=
  { status := 503
    reason := "Service Unavailable"
    headers := [("Remote-Address", remoteAddress)]
    version := (req.version / 10, req.version % 10)
    body := JsonBody.peerIps (redirectList.map Endpoint.to_string) }

/-- `OverlayImpl::processRequest` (lines 843–859): only `/crawl` is
handled, with a `200 OK` JSON crawl body. -/
def processRequest (req : HttpReq) : Option HttpResponse :=
  if req.url = "/crawl" then
    some { status := 200, reason := "OK", headers := [],
           version := (req.version / 10, req.version % 10),
           body := JsonBody.overlay }
  else none

/-- `OverlayImpl::onHandoff` (lines 172–287), with the external
collaborator results supplied through `env`: admin route check, peer
upgrade detection, local-endpoint read, resource check, inbound slot,
`Connect-As` validation, hello parsing and verification, activation, and
on success construction of the peer session. -/
def onHandoff (id : Nat) (env : HandoffEnv) (req : HttpReq)
    (remote : Endpoint) : Handoff × HandoffEffects :=
  let eff : HandoffEffects := { nextId := id + 1 }
  match processRequest req with
  | some resp => ({ moved := false, response := some resp }, eff)
  | none =>
    if ! isPeerUpgrade req then ({}, eff)
    else match env.localEndpoint with
      | none => ({ moved := true }, eff)
      | some _ =>
        let eff := { eff with consumerCreated := true }
        if env.consumerOverLimit then ({ moved := true }, eff)
        else match env.inboundSlot with
          | none => ({ moved := false }, eff)
          | some _ =>
            let eff := { eff with slotCreated := true }
            if ! req.connectAs.any ciIsPeer then
              ({ moved := false,
                 response := some (makeRedirectResponse env.redirectList req remote.ip),
                 keep_alive := req.keepAlive }, eff)
            else if ! env.helloParses then ({ moved := true }, eff)
            else if ! env.sharedValueOk then ({ moved := true }, eff)
            else if ! env.helloVerifies then ({ moved := true }, eff)
            else if env.activateResult ≠ ActivateResult.success then
              ({ moved := false,
                 response := some (makeRedirectResponse env.redirectList req remote.ip),
                 keep_alive := req.keepAlive },
               { eff with slotClosed := true })
            else
              ({ moved := true }, { eff with peerAdded := true })

/-! Claim theorems about `onHandoff`. -/

/-- C4: when the final admission gate `activate` does not return success,
`onHandoff` releases the slot via `on_closed` and answers with a 503 whose
JSON body lists the `redirect(slot)` endpoints as `<ip>:<port>` strings
under "peer-ips" and whose `Remote-Address` header is the client's IP
address; no peer session is created. -/
theorem onHandoff_activate_fail_redirect (id : Nat) (env : HandoffEnv)
    (req : HttpReq) (remote : Endpoint)
    (hurl : req.url ≠ "/crawl") (hup : isPeerUpgrade req = true)
    (hlep : env.localEndpoint.isSome = true)
    (hres : env.consumerOverLimit = false)
    (hslot : env.inboundSlot.isSome = true)
    (hca : req.connectAs.any ciIsPeer = true)
    (hhello : env.helloParses = true) (hsv : env.sharedValueOk = true)
    (hpk : env.helloVerifies = true)
    (hact : env.activateResult ≠ ActivateResult.success) :
    (onHandoff id env req remote).1 =
      { moved := false,
        response := some
          { status := 503, reason := "Service Unavailable",
            headers := [("Remote-Address", remote.ip)],
            version := (req.version / 10, req.version % 10),
            body := JsonBody.peerIps (env.redirectList.map Endpoint.to_string) },
        keep_alive := req.keepAlive } ∧
    (onHandoff id env req remote).2.slotClosed = true ∧
    (onHandoff id env req remote).2.peerAdded = false := by
  obtain ⟨lep, hlep⟩ := Option.isSome_iff_exists.mp hlep
  obtain ⟨s, hslot⟩ := Option.isSome_iff_exists.mp hslot
  unfold onHandoff
  simp [processRequest, makeRedirectResponse, hurl, hup, hlep, hslot, hres,
    hca, hhello, hsv, hpk, hact]

/-- Witness data for the handoff claims: an upgrade request whose
`Connect-As` header says `Peer`. -/
def wReq : HttpReq :=
  { url := "/", version := 11, isUpgrade := true, upgradeVersions := 1,
    connectAs := ["Peer"], keepAlive := true }

/-- Witness data: collaborator results leading to the slots-full redirect. -/
def wEnvFull : HandoffEnv :=
  { localEndpoint := some ⟨"10.0.0.1", 51235⟩, consumerOverLimit := false,
    inboundSlot := some 1, helloParses := true, sharedValueOk := true,
    helloVerifies := true, activateResult := ActivateResult.full,
    redirectList := [⟨"1.2.3.4", 51235⟩] }

/-- Witness data: the client's remote endpoint. -/
def wRemote : Endpoint := ⟨"9.8.7.6", 4444⟩

/-- Witness for C4: at the concrete refused upgrade the response is the
503 redirect with `peer-ips` body entry `1.2.3.4:51235` and
`Remote-Address: 9.8.7.6`. -/
theorem onHandoff_activate_fail_redirect_witness :
    wReq.url ≠ "/crawl" ∧ isPeerUpgrade wReq = true ∧
    wEnvFull.activateResult ≠ ActivateResult.success ∧
    ((onHandoff 3 wEnvFull wReq wRemote).1 =
      { moved := false,
        response := some
          { status := 503, reason := "Service Unavailable",
            headers := [("Remote-Address", wRemote.ip)],
            version := (wReq.version / 10, wReq.version % 10),
            body := JsonBody.peerIps (wEnvFull.redirectList.map Endpoint.to_string) },
        keep_alive := wReq.keepAlive } ∧
     (onHandoff 3 wEnvFull wReq wRemote).2.slotClosed = true ∧
     (onHandoff 3 wEnvFull wReq wRemote).2.peerAdded = false) :=
  ⟨by decide, by decide, by decide,
   onHandoff_activate_fail_redirect 3 wEnvFull wReq wRemote (by decide)
     (by decide) (by decide) (by decide) (by decide) (by decide) (by decide)
     (by decide) (by decide) (by decide)⟩

/-- C5: when `new_inbound_slot` returns null (self-connect detected),
`onHandoff` drops the connection silently: the handoff is returned with
`moved = false` and no response, no slot exists or is closed, and no peer
session is created. -/
theorem onHandoff_self_connect_drop (id : Nat) (env : HandoffEnv)
    (req : HttpReq) (remote : Endpoint)
    (hurl : req.url ≠ "/crawl") (hup : isPeerUpgrade req = true)
    (hlep : env.localEndpoint.isSome = true)
    (hres : env.consumerOverLimit = false)
    (hslot : env.inboundSlot = none) :
    (onHandoff id env req remote).1 =
      { moved := false, response := none, keep_alive := false } ∧
    (onHandoff id env req remote).2.slotCreated = false ∧
    (onHandoff id env req remote).2.slotClosed = false ∧
    (onHandoff id env req remote).2.peerAdded = false := by
  obtain ⟨lep, hlep⟩ := Option.isSome_iff_exists.mp hlep
  unfold onHandoff
  simp [processRequest, hurl, hup, hlep, hslot, hres]

/-- Witness data: collaborator results where the peer finder refuses the
inbound slot as a self-connect. -/
def wEnvSelf : HandoffEnv :=
  { localEndpoint := some ⟨"10.0.0.1", 51235⟩, consumerOverLimit := false,
    inboundSlot := none, helloParses := true, sharedValueOk := true,
    helloVerifies := true, activateResult := ActivateResult.success,
    redirectList := [] }

/-- Witness for C5 at the concrete self-connect refusal. -/
theorem onHandoff_self_connect_drop_witness :
    wReq.url ≠ "/crawl" ∧ wEnvSelf.inboundSlot = none ∧
    ((onHandoff 4 wEnvSelf wReq wRemote).1 =
      { moved := false, response := none, keep_alive := false } ∧
     (onHandoff 4 wEnvSelf wReq wRemote).2.slotCreated = false ∧
     (onHandoff 4 wEnvSelf wReq wRemote).2.slotClosed = false ∧
     (onHandoff 4 wEnvSelf wReq wRemote).2.peerAdded = false) :=
  ⟨by decide, by decide,
   onHandoff_self_connect_drop 4 wEnvSelf wReq wRemote (by decide) (by decide)
     (by decide) (by decide) (by decide)⟩

/-- C9: a request that is neither `/crawl` nor a peer upgrade passes
through: `moved = false`, no response, and the only overlay change is the
advanced id counter — no consumer, no slot, no peer-table entry. -/
theorem onHandoff_pass_through (id : Nat) (env : HandoffEnv) (req : HttpReq)
    (remote : Endpoint)
    (hurl : req.url ≠ "/crawl") (hup : isPeerUpgrade req = false) :
    (onHandoff id env req remote).1 =
      { moved := false, response := none, keep_alive := false } ∧
    (onHandoff id env req remote).2 = { nextId := id + 1 } := by
  unfold onHandoff
  simp [processRequest, hurl, hup]

/-- Witness data: a plain GET with no upgrade indication. -/
def wReqPlain : HttpReq :=
  { url := "/", version := 11, isUpgrade := false, upgradeVersions := 0,
    connectAs := [], keepAlive := false }

/-- Witness for C9 at a concrete non-upgrade request. -/
theorem onHandoff_pass_through_witness :
    wReqPlain.url ≠ "/crawl" ∧ isPeerUpgrade wReqPlain = false ∧
    ((onHandoff 9 wEnvFull wReqPlain wRemote).1 =
      { moved := false, response := none, keep_alive := false } ∧
     (onHandoff 9 wEnvFull wReqPlain wRemote).2 = { nextId := 10 }) :=
  ⟨by decide, by decide,
   onHandoff_pass_through 9 wEnvFull wReqPlain wRemote (by decide) (by decide)⟩

/-! Embedding of `OverlayImpl::onManifests`. -/

/-- `ManifestDisposition` returned by `ManifestCache::applyManifest`. -/
inductive ManifestDisposition where
  | accepted
  | untrusted
  | stale
  | invalid
deriving Repr, DecidableEq

/-- One element of a received `TMManifests` list, together with the
results of the external calls the loop body makes on it: whether
`make_Manifest` succeeds, the manifest's hash, its serialized bytes
(abstracted to an identifier), and the disposition `applyManifest`
returns (the manifest cache is outside the given sources). -/
structure ManifestItem where
  wellFormed : Bool
  hash : Uid
  serialized : Nat
  disposition : ManifestDisposition
deriving Repr, DecidableEq

/-- Observable effects accumulated by `onManifests`: the hash router, the
raw blobs inserted into the `ValidatorManifests` table, the manifests
published through `pubManifest`, and the relayed announcements with their
recipient ids. -/
structure ManifestEffects where
  router : HashRouter
  persisted : List Nat := []
  published : List Nat := []
  relays : List (Nat × List PeerId) := []
deriving Repr, DecidableEq

/-- The loop body of `OverlayImpl::onManifests` (lines 674–737): skip
malformed manifests; suppress via `addSuppressionPeer`; apply to the
cache; publish when accepted or untrusted; persist the raw bytes when
accepted; for history sets mark relayed and stop; otherwise re-announce
accepted manifests to every peer not in the swapped-out skip set. -/
def processManifestItem (peers : List PeerRec) (history : Bool)
    (fromId : PeerId) (eff : ManifestEffects) (item : ManifestItem) :
    ManifestEffects :=
  if ! item.wellFormed then eff
  else if ! (eff.router.addSuppressionPeer item.hash fromId).1 then
    { eff with router := (eff.router.addSuppressionPeer item.hash fromId).2 }
  else
    let r1 := (eff.router.addSuppressionPeer item.hash fromId).2
    let eff1 : ManifestEffects :=
      { eff with
        router := r1
        published :=
          if item.disposition = ManifestDisposition.accepted ∨
             item.disposition = ManifestDisposition.untrusted
          then eff.published ++ [item.serialized] else eff.published
        persisted :=
          if item.disposition = ManifestDisposition.accepted
          then eff.persisted ++ [item.serialized] else eff.persisted }
    if history then
      { eff1 with router := (r1.swapSet item.hash [] SF_RELAYED).2.1 }
    else if item.disposition = ManifestDisposition.accepted then
      { eff1 with
        router := (r1.swapSet item.hash [] SF_RELAYED).2.1
        relays := eff1.relays ++ [(item.serialized,
          (peers.filter (fun p =>
            !((r1.swapSet item.hash [] SF_RELAYED).2.2.contains p.id))).map
              PeerRec.id)] }
    else eff1

/-- `OverlayImpl::onManifests` (lines 662–738): fold of the loop body over
the received manifest list, starting from the current router state. -/
def onManifests (peers : List PeerRec) (history : Bool) (fromId : PeerId)
    (items : List ManifestItem) (r0 : HashRouter) : ManifestEffects :=
  items.foldl (processManifestItem peers history fromId) { router := r0 }

/-- C6: for a well-formed manifest that passes hash-router suppression:
history sets are never relayed; in a non-history set an accepted manifest
is persisted, published and re-announced to every peer other than the
sender (the suppression skip set); an untrusted manifest is published but
neither persisted nor relayed; a stale or invalid manifest is neither
persisted, published nor relayed. -/
theorem onManifests_disposition_effects (peers : List PeerRec)
    (history : Bool) (fromId : PeerId) (eff : ManifestEffects)
    (item : ManifestItem) (hwf : item.wellFormed = true)
    (hfresh : eff.router.find item.hash = none) :
    (history = true →
      (processManifestItem peers history fromId eff item).relays =
        eff.relays) ∧
    (history = false → item.disposition = ManifestDisposition.accepted →
      (processManifestItem peers history fromId eff item).persisted =
        eff.persisted ++ [item.serialized] ∧
      (processManifestItem peers history fromId eff item).published =
        eff.published ++ [item.serialized] ∧
      (processManifestItem peers history fromId eff item).relays =
        eff.relays ++ [(item.serialized,
          (peers.filter (fun p => p.id ≠ fromId)).map PeerRec.id)]) ∧
    (item.disposition = ManifestDisposition.untrusted →
      (processManifestItem peers history fromId eff item).published =
        eff.published ++ [item.serialized] ∧
      (processManifestItem peers history fromId eff item).persisted =
        eff.persisted ∧
      (processManifestItem peers history fromId eff item).relays =
        eff.relays) ∧
    (item.disposition = ManifestDisposition.stale ∨
        item.disposition = ManifestDisposition.invalid →
      (processManifestItem peers history fromId eff item).persisted =
        eff.persisted ∧
      (processManifestItem peers history fromId eff item).published =
        eff.published ∧
      (processManifestItem peers history fromId eff item).relays =
        eff.relays) := by
  have hadd : eff.router.addSuppressionPeer item.hash fromId =
      (true, eff.router.store item.hash ⟨[], [fromId]⟩) := by
    simp [HashRouter.addSuppressionPeer, hfresh]
  refine ⟨?_, ?_, ?_, ?_⟩
  · intro hh
    simp [processManifestItem, hwf, hadd, hh]
  · intro hh hd
    refine ⟨?_, ?_, ?_⟩ <;>
      simp [processManifestItem, hwf, hadd, hh, hd, HashRouter.swapSet,
        HashRouter.entry_store]
  · intro hd
    by_cases hh : history = true <;>
      refine ⟨?_, ?_, ?_⟩ <;>
        simp [processManifestItem, hwf, hadd, hh, hd]
  · intro hd
    rcases hd with hd | hd <;>
      by_cases hh : history = true <;>
        refine ⟨?_, ?_, ?_⟩ <;>
          simp [processManifestItem, hwf, hadd, hh, hd]

/-- Witness data: a well-formed accepted manifest not yet suppressed. -/
def wManItem : ManifestItem :=
  { wellFormed := true, hash := 11, serialized := 42,
    disposition := ManifestDisposition.accepted }

/-- Witness data: manifest-processing effects with an empty router. -/
def wManEff : ManifestEffects := { router := ⟨[]⟩ }

/-- Witness for C6: at the concrete accepted manifest from peer 5 in a
two-peer overlay, a non-history set persists, publishes and re-announces
to peer 6 only. -/
theorem onManifests_disposition_effects_witness :
    wManItem.wellFormed = true ∧
    wManEff.router.find wManItem.hash = none ∧
    ((true = true →
       (processManifestItem wSt.peers true 5 wManEff wManItem).relays =
         wManEff.relays) ∧
     (processManifestItem wSt.peers false 5 wManEff wManItem).persisted =
       wManEff.persisted ++ [wManItem.serialized] ∧
     (processManifestItem wSt.peers false 5 wManEff wManItem).published =
       wManEff.published ++ [wManItem.serialized] ∧
     (processManifestItem wSt.peers false 5 wManEff wManItem).relays =
       wManEff.relays ++ [(wManItem.serialized,
         (wSt.peers.filter (fun p => p.id ≠ 5)).map PeerRec.id)]) :=
  ⟨by decide, by decide,
   (onManifests_disposition_effects wSt.peers true 5 wManEff wManItem
      (by decide) (by decide)).1,
   (onManifests_disposition_effects wSt.peers false 5 wManEff wManItem
      (by decide) (by decide)).2.1 rfl rfl⟩

/-! Embedding of `OverlayImpl::selectPeers`. -/

/-- One active peer together with the score `PeerImp::getScore(score(e))`
computed for it while building the vector `v` (the scoring internals live
outside the given sources, so the score enters as data). -/
structure ScoredPeer where
  id : PeerId
  score : Int
deriving Repr, DecidableEq

/-- The acceptance loop of `OverlayImpl::selectPeers` (lines 770–776):
walk the sorted vector; an insertion the set accepts (the id was not yet
present) increments `accepted`, and the loop stops as soon as `limit`
acceptances are reached. -/
def selectLoop (limit : Nat) :
    List ScoredPeer → List PeerId → Nat → Nat × List PeerId
  | [], set, acc => (acc, set)
  | e :: rest, set, acc =>
    if set.contains e.id then selectLoop limit rest set acc
    else if limit ≤ acc + 1 then (acc + 1, set ++ [e.id])
    else selectLoop limit rest (set ++ [e.id]) (acc + 1)

/-- `OverlayImpl::selectPeers` (lines 749–777): score every active peer
into a vector, sort it descending by score with `std::sort`, then run the
acceptance loop.  `std::sort` is unstable, so the embedding takes the
sorted vector `v` as an input, constrained in the theorems to the
`std::sort` postcondition: a permutation of the scored peers that is
nonincreasing in score. -/
def selectPeers (v : List ScoredPeer) (set0 : List PeerId) (limit : Nat) :
    Nat × List PeerId :=
  selectLoop limit v set0 0

/-- Nonincreasing score order: the `std::sort` postcondition for the
comparator `lhs.first > rhs.first`. -/
def descByScore (v : List ScoredPeer) : Prop :=
  v.Pairwise (fun a b => b.score ≤ a.score)

/-- The acceptance count never exceeds `limit` once it starts below it. -/
theorem selectLoop_le (limit : Nat) (l : List ScoredPeer) (set : List PeerId)
    (acc : Nat) (h : acc < limit) : (selectLoop limit l set acc).1 ≤ limit := by
  induction l generalizing set acc with
  | nil => exact le_of_lt h
  | cons e rest ih =>
    simp only [selectLoop]
    split
    · exact ih set acc h
    · split
      · exact h
      · exact ih _ _ (by omega)

/-- Each accepted insertion grows the set by exactly one id. -/
theorem selectLoop_length (limit : Nat) (l : List ScoredPeer)
    (set : List PeerId) (acc : Nat) :
    (selectLoop limit l set acc).2.length + acc =
      set.length + (selectLoop limit l set acc).1 := by
  induction l generalizing set acc with
  | nil => rfl
  | cons e rest ih =>
    simp only [selectLoop]
    split
    · exact ih set acc
    · split
      · simp
        omega
      · have := ih (set ++ [e.id]) (acc + 1)
        simp at this ⊢
        omega

/-- Every id in the final set comes from the initial set or the vector. -/
theorem selectLoop_mem (limit : Nat) (l : List ScoredPeer) (set : List PeerId)
    (acc : Nat) :
    ∀ i ∈ (selectLoop limit l set acc).2,
      i ∈ set ∨ i ∈ l.map ScoredPeer.id := by
  induction l generalizing set acc with
  | nil =>
    intro i hi
    exact Or.inl hi
  | cons e rest ih =>
    intro i hi
    simp only [selectLoop] at hi
    split at hi
    · rcases ih set acc i hi with h | h
      · exact Or.inl h
      · exact Or.inr (by simp [h])
    · split at hi
      · rcases List.mem_append.mp hi with h | h
        · exact Or.inl h
        · simp at h
          exact Or.inr (by simp [h])
      · rcases ih (set ++ [e.id]) (acc + 1) i hi with h | h
        · rcases List.mem_append.mp h with h | h
          · exact Or.inl h
          · simp at h
            exact Or.inr (by simp [h])
        · exact Or.inr (by simp [h])

/-- C7 counterexample: equal-score peers are not guaranteed to be taken in
insertion order.  The vector `[⟨2,5⟩, ⟨1,5⟩]` satisfies the `std::sort`
postcondition (descending, a permutation of the scored peers
`[⟨1,5⟩, ⟨2,5⟩]`), yet with `limit = 1` it selects peer 2, while insertion
order would select peer 1: the selection is not determined by insertion
order. -/
theorem selectPeers_tie_unspecified :
    descByScore [⟨2, 5⟩, ⟨1, 5⟩] ∧
    ([⟨2, 5⟩, ⟨1, 5⟩] : List ScoredPeer).Perm [⟨1, 5⟩, ⟨2, 5⟩] ∧
    (selectPeers [⟨2, 5⟩, ⟨1, 5⟩] [] 1).2 = [2] ∧
    (selectPeers [⟨1, 5⟩, ⟨2, 5⟩] [] 1).2 = [1] ∧
    (2 : PeerId) ≠ 1 := by
  refine ⟨?_, ?_, by decide, by decide, by decide⟩
  · simp [descByScore]
  · exact List.Perm.swap _ _ _

/-- C7 amended: every active peer is scored exactly once and appears
exactly once in the sorted vector `v` (a descending permutation of the
scored peers, the relative order of equal scores being unspecified since
`std::sort` is unstable); with `limit > 0` the insertion loop accepts at
most `limit` insertions, the returned count equals the number of accepted
insertions (the set grows by exactly that many ids), and every id in the
final set comes from the initial set or from the scored peers. -/
theorem selectPeers_spec (peersScored v : List ScoredPeer)
    (set0 : List PeerId) (limit : Nat) (hlim : 0 < limit)
    (hperm : v.Perm peersScored) (hsort : descByScore v) :
    (∀ (i j : Fin v.length), i < j → (v.get j).score ≤ (v.get i).score) ∧
    (selectPeers v set0 limit).1 ≤ limit ∧
    (selectPeers v set0 limit).2.length =
      set0.length + (selectPeers v set0 limit).1 ∧
    (∀ i ∈ (selectPeers v set0 limit).2,
      i ∈ set0 ∨ i ∈ peersScored.map ScoredPeer.id) := by
  refine ⟨fun i j hij => List.pairwise_iff_get.mp hsort i j hij,
    selectLoop_le limit v set0 0 hlim, ?_, ?_⟩
  · have := selectLoop_length limit v set0 0
    unfold selectPeers
    omega
  · intro i hi
    rcases selectLoop_mem limit v set0 0 i hi with h | h
    · exact Or.inl h
    · exact Or.inr ((hperm.map ScoredPeer.id).mem_iff.mp h)

/-- Witness for C7's amended statement at a concrete two-peer selection
with `limit = 1`. -/
theorem selectPeers_spec_witness :
    (0 : Nat) < 1 ∧
    ([⟨1, 10⟩, ⟨2, 7⟩] : List ScoredPeer).Perm [⟨2, 7⟩, ⟨1, 10⟩] ∧
    descByScore [⟨1, 10⟩, ⟨2, 7⟩] ∧
    ((∀ (i j : Fin ([⟨1, 10⟩, ⟨2, 7⟩] : List ScoredPeer).length), i < j →
        (([⟨1, 10⟩, ⟨2, 7⟩] : List ScoredPeer).get j).score ≤
          (([⟨1, 10⟩, ⟨2, 7⟩] : List ScoredPeer).get i).score) ∧
     (selectPeers [⟨1, 10⟩, ⟨2, 7⟩] [] 1).1 ≤ 1 ∧
     (selectPeers [⟨1, 10⟩, ⟨2, 7⟩] [] 1).2.length =
       ([] : List PeerId).length + (selectPeers [⟨1, 10⟩, ⟨2, 7⟩] [] 1).1 ∧
     (∀ i ∈ (selectPeers [⟨1, 10⟩, ⟨2, 7⟩] [] 1).2,
       i ∈ ([] : List PeerId) ∨
       i ∈ ([⟨2, 7⟩, ⟨1, 10⟩] : List ScoredPeer).map ScoredPeer.id)) :=
  ⟨by decide, List.Perm.swap _ _ _, by simp [descByScore],
   selectPeers_spec [⟨2, 7⟩, ⟨1, 10⟩] [⟨1, 10⟩, ⟨2, 7⟩] [] 1 (by decide)
     (List.Perm.swap _ _ _) (by simp [descByScore])⟩

/-! Embedding of the `ConnectAttempt` watchdog discipline. -/

/-- The suspending asynchronous operations a `ConnectAttempt` issues. -/
inductive AsyncOp where
  | connect
  | tlsHandshake
  | writeSome
  | readSome
  | shutdown
deriving Repr, DecidableEq

/-- The timer- and io-relevant actions a `ConnectAttempt` handler
performs, listed in source order. -/
inductive CAAction where
  | setTimer (secs : Nat)
  | cancelTimer
  | issue (op : AsyncOp)
  | failTimeout
deriving Repr, DecidableEq

/-- `ConnectAttempt::run` (part_001 lines 82–89): issues `async_connect`
directly; no timer is armed first. -/
def run_actions : List CAAction := [CAAction.issue AsyncOp.connect]

/-- `ConnectAttempt::onConnect`, success path (lines 172–194): cancel the
old timer, arm the 15-second watchdog via `setTimer`, start the TLS
handshake. -/
def onConnect_actions : List CAAction :=
  [CAAction.cancelTimer, CAAction.setTimer 15,
   CAAction.issue AsyncOp.tlsHandshake]

/-- `ConnectAttempt::onHandshake`, success path (lines 196–238): cancel,
build and buffer the upgrade request, arm the watchdog, start writing. -/
def onHandshake_actions : List CAAction :=
  [CAAction.cancelTimer, CAAction.setTimer 15,
   CAAction.issue AsyncOp.writeSome]

/-- `ConnectAttempt::onWrite`, partial-write path (lines 240–263). -/
def onWrite_actions : List CAAction :=
  [CAAction.cancelTimer, CAAction.setTimer 15,
   CAAction.issue AsyncOp.writeSome]

/-- `ConnectAttempt::onRead`, incomplete-response path (lines 265–314). -/
def onRead_actions : List CAAction :=
  [CAAction.cancelTimer, CAAction.setTimer 15,
   CAAction.issue AsyncOp.readSome]

/-- `ConnectAttempt::onRead`, EOF path (lines 273–282): arm the watchdog
and start the TLS shutdown. -/
def onReadEof_actions : List CAAction :=
  [CAAction.cancelTimer, CAAction.setTimer 15,
   CAAction.issue AsyncOp.shutdown]

/-- `ConnectAttempt::onTimer` on expiry with the socket open and no error
(lines 155–170): the attempt fails (`fail("Timeout")`). -/
def onTimer_expiry_actions : List CAAction := [CAAction.failTimeout]

/-- Pair each operation a script issues with whether the watchdog timer
was armed at that point, scanning from the given initial armed state. -/
def armedAtIssue : List CAAction → Bool → List (AsyncOp × Bool)
  | [], _ => []
  | CAAction.setTimer _ :: rest, _ => armedAtIssue rest true
  | CAAction.cancelTimer :: rest, _ => armedAtIssue rest false
  | CAAction.issue op :: rest, armed => (op, armed) :: armedAtIssue rest armed
  | CAAction.failTimeout :: rest, armed => armedAtIssue rest armed

/-- A handler script is guarded when every operation it issues has the
watchdog armed at issue time and every deadline it arms is 15 seconds. -/
def guarded15 (script : List CAAction) : Bool :=
  (armedAtIssue script false).all (fun x => x.2) &&
  script.all (fun a => match a with
    | CAAction.setTimer s => s == 15
    | _ => true)

/-- C8 counterexample: the attempt's first suspending operation is not
guarded — `ConnectAttempt::run` issues `async_connect` with no timer
armed, so not every transition of the connect state machine sits under the
15-second watchdog. -/
theorem connectAttempt_run_unguarded :
    armedAtIssue run_actions false = [(AsyncOp.connect, false)] ∧
    guarded15 run_actions = false := by decide

/-- C8 amended: every handler after the initial TCP connect arms the
15-second watchdog before its suspending network operation
(TLS handshake, each write, each read, the EOF shutdown), and expiry of
the armed timer fails the attempt; the initial `async_connect` issued by
`run` is the one unguarded transition. -/
theorem connectAttempt_watchdog :
    guarded15 onConnect_actions = true ∧
    guarded15 onHandshake_actions = true ∧
    guarded15 onWrite_actions = true ∧
    guarded15 onRead_actions = true ∧
    guarded15 onReadEof_actions = true ∧
    onTimer_expiry_actions = [CAAction.failTimeout] := by decide

/-! Embedding of `OverlayImpl::stop`. -/

/-- The shutdown-relevant overlay state: whether the io-work guard
(`work_`) is still held, and the children list `list_` as pairs of a
child id and its reachability (whether the weak handle still locks). -/
structure StopState where
  work : Bool
  children : List (Nat × Bool)
deriving Repr, DecidableEq

/-- `OverlayImpl::stop` (lines 983–998): under the mutex, when the work
guard is held, release it and invoke `stop()` on every still-reachable
child of `list_`; otherwise do nothing.  Returns the new state and the
ids of the children whose `stop()` was invoked. -/
def StopState.stop (st : StopState) : StopState × List Nat :=
  if st.work then
    ({ st with work := false }, (st.children.filter (·.2)).map (·.1))
  else (st, [])

/-- C10: `stop` is idempotent.  A first call with the guard held releases
it and invokes `stop()` on exactly the still-reachable children; a call
with the guard already released changes nothing and stops nobody; in
particular the call after any first call is the identity. -/
theorem overlay_stop_idempotent (st : StopState) :
    (st.work = true →
      (st.stop.1 = { st with work := false } ∧
       st.stop.2 = (st.children.filter (·.2)).map (·.1))) ∧
    (st.work = false → st.stop = (st, [])) ∧
    st.stop.1.stop = (st.stop.1, []) := by
  refine ⟨?_, ?_, ?_⟩
  · intro h
    simp [StopState.stop, h]
  · intro h
    simp [StopState.stop, h]
  · by_cases h : st.work = true <;> simp [StopState.stop, h]

/-- Witness data: a running overlay with one reachable and one expired
child. -/
def wStop : StopState := ⟨true, [(1, true), (2, false)]⟩

/-- Witness for C10: the concrete first call stops child 1 only and the
second call is the identity. -/
theorem overlay_stop_idempotent_witness :
    wStop.work = true ∧
    (wStop.stop.1 = { wStop with work := false } ∧
     wStop.stop.2 = (wStop.children.filter (·.2)).map (·.1)) ∧
    wStop.stop.1.stop = (wStop.stop.1, []) :=
  ⟨by decide, (overlay_stop_idempotent wStop).1 (by decide),
   (overlay_stop_idempotent wStop).2.2⟩

end RippledOverlay
